import Mathlib

/-!
# Verification of the agentic-usage-monitor core

A shallow embedding, in Lean 4, of the monitor-and-orchestration engine of
the `agentic-usage-monitor` repository:

* the credential store adapter (`src/monitor/oauth-credentials.ts`:
  `loadOAuthCredentials`, `parseClaudeCodeCredentials`, `loadFromOpenCode`,
  `loadFromClaudeCode`, `getTokenExpiryInfo`),
* the token refresh client and write-back path (`src/data/index.ts`:
  `refreshOAuthToken`, `writeBackCredentials`, `writeClaudeCodeCredentials`,
  `writeOpenCodeCredentials`, `writeTestCredentials`),
* the usage API client (`src/data/oauth-api.ts`: `ClaudeOAuthApi.request`,
  `createError`, `parseErrorMessage`, `getRateLimitSummary`),
* the pane placement controller (`src/cli/pane-manager.ts`:
  `moveMonitorPane`),
* the monitor engine state transition (modelled from the specification;
  its implementation file is not part of the sources at hand).

File system reads, keychain queries and HTTP exchanges are modelled as
explicit environments handed to the embedded functions; JSON documents are
modelled as parsed JSON values (`Json` below); JavaScript `Date`
conversions between epoch-milliseconds and canonical ISO-8601 strings are
implemented executably (proleptic Gregorian calendar).
-/

set_option autoImplicit false

namespace UsageMonitor

/-! ## A model of parsed JSON documents

The source manipulates credential files through `JSON.parse` /
`JSON.stringify`.  We model a parsed document as a `Json` value; an object
is an association list of fields in insertion order (JavaScript preserves
string-key insertion order, and the files at hand have unique keys).
-/

inductive Json where
  | null : Json
  | bool (b : Bool) : Json
  | num (n : Int) : Json
  | str (s : String) : Json
  | arr (elems : List Json) : Json
  | obj (fields : List (String × Json)) : Json
deriving Repr

/-- Field lookup in a JSON object field list (first occurrence). -/
def jLookup (k : String) : List (String × Json) → Option Json
  | [] => none
  | (k', v) :: rest => if k' = k then some v else jLookup k rest

/-- JavaScript property access `o?.k`: yields the field of an object,
`undefined` (here `none`) for any non-object or missing field. -/
def jsGet (j : Json) (k : String) : Option Json :=
  match j with
  | .obj fields => jLookup k fields
  | _ => none

/-- View a JSON value as a string (the type ascribed by the source's
TypeScript interfaces). -/
def asStr : Json → Option String
  | .str s => some s
  | _ => none

/-- View a JSON value as a number (the credential files store epoch
milliseconds as integers). -/
def asInt : Json → Option Int
  | .num n => some n
  | _ => none

/-- View a JSON value as an array of strings (the `scopes` field type). -/
def asStrList (j : Json) : Option (List String) :=
  match j with
  | .arr elems =>
    let rec collect : List Json → Option (List String)
      | [] => some []
      | .str s :: rest => (collect rest).map (s :: ·)
      | _ => none
    collect elems
  | _ => none

/-- Whether character list `p` starts character list `s`. -/
def charsStartWith (s p : List Char) : Bool :=
  match s, p with
  | _, [] => true
  | [], _ :: _ => false
  | c :: cs, q :: qs => c == q && charsStartWith cs qs

/-- `String.prototype.startsWith`, implemented over the character lists so
that it evaluates inside the kernel. -/
def strStartsWith (s p : String) : Bool :=
  charsStartWith s.data p.data

/-- JavaScript truthiness of a JSON value: `null`, `false`, `0` and the
empty string are falsy, everything else truthy. -/
def jsTruthy : Json → Bool
  | .null => false
  | .bool b => b
  | .num n => n != 0
  | .str s => s ≠ ""
  | .arr _ => true
  | .obj _ => true

/-- Overwrite field `k` with value `v` in place (first occurrence), or
append it; models a JavaScript object-literal spread followed by
`JSON.stringify` (which keeps key insertion order). -/
def insertKey : List (String × Json) → String → Json → List (String × Json)
  | [], k, v => [(k, v)]
  | (k', v') :: rest, k, v =>
    if k' = k then (k, v) :: rest else (k', v') :: insertKey rest k v

/-- Remove field `k`; models assigning `undefined` to a property, which
`JSON.stringify` then omits from the output.  (JavaScript objects hold
each key at most once, so removing every occurrence agrees with them.) -/
def eraseKey : List (String × Json) → String → List (String × Json)
  | [], _ => []
  | (k', v') :: rest, k =>
    if k' = k then eraseKey rest k else (k', v') :: eraseKey rest k

/-- Set field `k` to `v` (`none` = the JavaScript value `undefined`, which
`JSON.stringify` drops). -/
def setKey (fields : List (String × Json)) (k : String) (v : Option Json) :
    List (String × Json) :=
  match v with
  | none => eraseKey fields k
  | some jv => insertKey fields k jv

/-! ## JavaScript `Date` conversions

The credential files store expiry timestamps either as epoch-milliseconds
numbers or as ISO-8601 strings; the source converts between the two with
`new Date(ms).toISOString()` and `new Date(iso).getTime()`.  We implement
both directions over the proleptic Gregorian calendar (days-from-civil /
civil-from-days).  `isoToMs` accepts exactly the canonical 24-character
format `YYYY-MM-DDTHH:MM:SS.sssZ` that `toISOString` produces (years
0..9999); other strings behave like an invalid `Date` (`NaN`), which every
use site handles explicitly.
-/

/-- Civil date from days since 1970-01-01 (proleptic Gregorian). -/
def civilFromDays (z : Int) : Int × Nat × Nat :=
  let z' := z + 719468
  let era : Int := z'.ediv 146097
  let doe : Nat := (z' - era * 146097).toNat
  let yoe : Nat := (doe - doe / 1460 + doe / 36524 - doe / 146096) / 365
  let doy : Nat := doe - (365 * yoe + yoe / 4 - yoe / 100)
  let mp : Nat := (5 * doy + 2) / 153
  let d : Nat := doy - (153 * mp + 2) / 5 + 1
  let m : Nat := if mp < 10 then mp + 3 else mp - 9
  let y : Int := (yoe : Int) + era * 400 + (if m ≤ 2 then 1 else 0)
  (y, m, d)

/-- Days since 1970-01-01 of a civil date (proleptic Gregorian). -/
def daysFromCivil (y : Int) (m d : Nat) : Int :=
  let y' : Int := y - (if m ≤ 2 then 1 else 0)
  let era : Int := y'.ediv 400
  let yoe : Nat := (y' - era * 400).toNat
  let mp : Nat := if m > 2 then m - 3 else m + 9
  let doy : Nat := (153 * mp + 2) / 5 + d - 1
  let doe : Nat := yoe * 365 + yoe / 4 - yoe / 100 + doy
  era * 146097 + (doe : Int) - 719468

/-- Zero-pad a natural number to a fixed width. -/
def padNum (width : Nat) (n : Nat) : String :=
  let s := toString n
  if s.length < width then
    String.mk (List.replicate (width - s.length) '0') ++ s
  else s

/-- `new Date(ms).toISOString()` for years 0..9999. -/
def msToIso (ms : Int) : String :=
  let days : Int := ms.ediv 86400000
  let msod : Nat := (ms - days * 86400000).toNat
  let ymd := civilFromDays days
  let hh := msod / 3600000
  let mi := msod % 3600000 / 60000
  let ss := msod % 60000 / 1000
  let mss := msod % 1000
  padNum 4 ymd.1.toNat ++ "-" ++ padNum 2 ymd.2.1 ++ "-" ++ padNum 2 ymd.2.2 ++
    "T" ++ padNum 2 hh ++ ":" ++ padNum 2 mi ++ ":" ++ padNum 2 ss ++ "." ++
    padNum 3 mss ++ "Z"

/-- Digit value of a character, if it is a decimal digit. -/
def digitVal (c : Char) : Option Nat :=
  if '0' ≤ c ∧ c ≤ '9' then some (c.toNat - '0'.toNat) else none

/-- Read a fixed-width decimal number from characters. -/
def readDigits : List Char → Option Nat
  | [] => some 0
  | c :: rest => do
    let d ← digitVal c
    let r ← readDigits rest
    some (d * 10 ^ rest.length + r)

/-- Number of days in a month of the proleptic Gregorian calendar. -/
def daysInMonth (y : Int) (m : Nat) : Nat :=
  if m = 2 then
    if y.emod 4 = 0 ∧ (y.emod 100 ≠ 0 ∨ y.emod 400 = 0) then 29 else 28
  else if m = 4 ∨ m = 6 ∨ m = 9 ∨ m = 11 then 30
  else 31

/-- `new Date(s).getTime()` restricted to the canonical ISO-8601 format
produced by `toISOString`; `none` models an invalid `Date` (`NaN`). -/
def isoToMs (s : String) : Option Int :=
  match s.data with
  | [y1, y2, y3, y4, '-', m1, m2, '-', d1, d2, 'T',
     h1, h2, ':', i1, i2, ':', s1, s2, '.', f1, f2, f3, 'Z'] => do
    let y ← readDigits [y1, y2, y3, y4]
    let m ← readDigits [m1, m2]
    let d ← readDigits [d1, d2]
    let hh ← readDigits [h1, h2]
    let mi ← readDigits [i1, i2]
    let ss ← readDigits [s1, s2]
    let f ← readDigits [f1, f2, f3]
    if 1 ≤ m ∧ m ≤ 12 ∧ 1 ≤ d ∧ d ≤ daysInMonth (y : Int) m ∧
        hh ≤ 23 ∧ mi ≤ 59 ∧ ss ≤ 59 then
      some (daysFromCivil (y : Int) m d * 86400000 +
        ((hh * 3600000 + mi * 60000 + ss * 1000 + f : Nat) : Int))
    else none
  | _ => none

/-! ## Credential store adapter (`oauth-credentials.ts`)

The adapter reads, in fixed priority order, the Claude Code credential
store (macOS keychain, then `~/.claude/.credentials.json`) and the
OpenCode auth file (`~/.local/share/opencode/auth.json`); an explicit
`TEST_CREDENTIALS_PATH` override replaces the whole list.  The file system
and keychain are modelled by `CredStoreEnv`.  Fields of the parsed JSON
are read at the types the source's TypeScript interfaces declare for them
(`asStr`, `asInt`, `asStrList`); a truthy access token of the wrong
runtime type, which would make `startsWith` throw, is modelled by the
`thrown` outcome.
-/

/-- Credential record (`OAuthCredentials` in the source). -/
structure OAuthCredentials where
  accessToken : String
  refreshToken : Option String
  expiresAt : Option String
  scopes : Option (List String)
deriving DecidableEq, Repr

/-- The named origin of a loaded credential (`"claude-code" | "opencode"`). -/
inductive CredentialSource where
  | claudeCode
  | opencode
deriving DecidableEq, Repr

/-- Result of a credential load (`LoadCredentialsResult` in the source):
`success` carries the record and the source used, `failure` the error
string. -/
inductive LoadCredentialsResult where
  | success (credentials : OAuthCredentials) (source : CredentialSource)
  | failure (error : String)
deriving DecidableEq, Repr

/-- Whether a load succeeded (`result.success` in the source). -/
def LoadCredentialsResult.isSuccess : LoadCredentialsResult → Bool
  | .success _ _ => true
  | .failure _ => false

/-- State of one on-disk credential file: absent, present but not valid
JSON (carrying the `JSON.parse` error message), or present and parsed. -/
inductive FileState where
  | missing
  | badJson (parseErrMsg : String)
  | parsed (doc : Json)

/-- State of the macOS keychain entry: `unavailable` covers a failing
`security` command and output that `JSON.parse` rejects (both end in the
same `catch`); `entry` is a successfully parsed payload. -/
inductive KeychainState where
  | unavailable
  | entry (doc : Json)

/-- The credential store environment: the test override (with the state of
the file it points to; `none` means `TEST_CREDENTIALS_PATH` is unset), the
platform, the keychain, and the two credential files. -/
structure CredStoreEnv where
  testCredentials : Option FileState
  platformDarwin : Bool
  keychain : KeychainState
  claudeCodeFile : FileState
  openCodeFile : FileState

/-- Outcome of `parseClaudeCodeCredentials`: a returned result, or a
thrown `TypeError` (caught by every caller). -/
inductive ParseOutcome where
  | ret (r : LoadCredentialsResult)
  | thrown (msg : String)

/-- `parseClaudeCodeCredentials(parsed)`: requires a truthy
`claudeAiOauth.accessToken`, validates the `sk-ant-oat` shape, converts a
numeric `expiresAt` (epoch ms) to an ISO string and keeps a string one
as-is. -/
def parseClaudeCodeCredentials (parsed : Json) : ParseOutcome :=
  match jsGet parsed "claudeAiOauth" with
  | some (.obj innerFields) =>
    match jLookup "accessToken" innerFields with
    | some v =>
      if ¬ jsTruthy v then
        .ret (.failure "No OAuth credentials in Claude Code data.")
      else
        match v with
        | .str accessToken =>
          if ¬ strStartsWith accessToken "sk-ant-oat" then
            .ret (.failure "Invalid OAuth token format in Claude Code.")
          else
            let refreshToken := (jLookup "refreshToken" innerFields).bind asStr
            let expiresAtIso :=
              match jLookup "expiresAt" innerFields with
              | some (.num n) => some (msToIso n)
              | some (.str s) => some s
              | _ => none
            let scopes := (jLookup "scopes" innerFields).bind asStrList
            .ret (.success
              { accessToken, refreshToken, expiresAt := expiresAtIso, scopes }
              .claudeCode)
        | _ => .thrown "accessToken.startsWith is not a function"
    | none => .ret (.failure "No OAuth credentials in Claude Code data.")
  | _ => .ret (.failure "No OAuth credentials in Claude Code data.")

/-- `loadFromClaudeCodeKeychain()`: only on macOS; any `security` or parse
exception becomes `claude-code-keychain-not-found`. -/
def loadFromClaudeCodeKeychain (env : CredStoreEnv) : LoadCredentialsResult :=
  if ¬ env.platformDarwin then .failure "keychain-not-supported"
  else
    match env.keychain with
    | .unavailable => .failure "claude-code-keychain-not-found"
    | .entry doc =>
      match parseClaudeCodeCredentials doc with
      | .ret r => r
      | .thrown _ => .failure "claude-code-keychain-not-found"

/-- `loadFromClaudeCodeFile()`: reads `~/.claude/.credentials.json`; a
`JSON.parse` or `TypeError` exception becomes a
`Failed to parse Claude Code credentials:` error. -/
def loadFromClaudeCodeFile (env : CredStoreEnv) : LoadCredentialsResult :=
  match env.claudeCodeFile with
  | .missing => .failure "claude-code-file-not-found"
  | .badJson m => .failure ("Failed to parse Claude Code credentials: " ++ m)
  | .parsed doc =>
    match parseClaudeCodeCredentials doc with
    | .ret r => r
    | .thrown m => .failure ("Failed to parse Claude Code credentials: " ++ m)

/-- `loadFromClaudeCode()`: keychain first, then the file; any combination
of failures collapses into the single error `claude-code-not-found`. -/
def loadFromClaudeCode (env : CredStoreEnv) : LoadCredentialsResult :=
  match loadFromClaudeCodeKeychain env with
  | .success c s => .success c s
  | .failure _ =>
    match loadFromClaudeCodeFile env with
    | .success c s => .success c s
    | .failure _ => .failure "claude-code-not-found"

/-- `loadFromOpenCode()`: reads the `anthropic` entry of
`~/.local/share/opencode/auth.json`; a numeric `expires` (epoch ms) is
converted to an ISO string when truthy. -/
def loadFromOpenCode (env : CredStoreEnv) : LoadCredentialsResult :=
  match env.openCodeFile with
  | .missing => .failure "opencode-not-found"
  | .badJson m => .failure ("Failed to parse OpenCode auth: " ++ m)
  | .parsed doc =>
    match jsGet doc "anthropic" with
    | some (.obj aFields) =>
      match jLookup "access" aFields with
      | some v =>
        if ¬ jsTruthy v then
          .failure "No Anthropic OAuth in OpenCode auth file."
        else
          match v with
          | .str access =>
            if ¬ strStartsWith access "sk-ant-oat" then
              .failure "Invalid OAuth token format in OpenCode."
            else
              let refresh := (jLookup "refresh" aFields).bind asStr
              let expires := (jLookup "expires" aFields).bind asInt
              let expiresAt :=
                match expires with
                | some n => if n ≠ 0 then some (msToIso n) else none
                | none => none
              .success
                { accessToken := access, refreshToken := refresh,
                  expiresAt, scopes := none }
                .opencode
          | _ =>
            .failure
              "Failed to parse OpenCode auth: access.startsWith is not a function"
      | none => .failure "No Anthropic OAuth in OpenCode auth file."
    | _ => .failure "No Anthropic OAuth in OpenCode auth file."

/-- `loadFromTestCredentials()`: the explicit override file
(`access_token` / `refresh_token` / `expires_at` in epoch ms); note the
source labels its result with source `"opencode"` and applies no token
shape check. -/
def loadFromTestCredentials (env : CredStoreEnv) : LoadCredentialsResult :=
  match env.testCredentials with
  | none => .failure "test-path-not-set"
  | some .missing => .failure "test-credentials-not-found"
  | some (.badJson m) => .failure ("Failed to parse test credentials: " ++ m)
  | some (.parsed doc) =>
    match (jsGet doc "access_token").bind asStr with
    | none => .failure "No access_token in test credentials file."
    | some access =>
      if access = "" then .failure "No access_token in test credentials file."
      else
        let refresh := (jsGet doc "refresh_token").bind asStr
        let expires := (jsGet doc "expires_at").bind asInt
        let expiresAt :=
          match expires with
          | some n => if n ≠ 0 then some (msToIso n) else none
          | none => none
        .success
          { accessToken := access, refreshToken := refresh,
            expiresAt, scopes := none }
          .opencode

/-- `loadOAuthCredentials()`: the test override short-circuits everything;
otherwise Claude Code is tried, then OpenCode, and the two failures are
aggregated — the generic re-authenticate message only when both report
not-found. -/
def loadOAuthCredentials (env : CredStoreEnv) : LoadCredentialsResult :=
  if env.testCredentials.isSome then loadFromTestCredentials env
  else
    match loadFromClaudeCode env with
    | .success c s => .success c s
    | .failure claudeCodeError =>
      match loadFromOpenCode env with
      | .success c s => .success c s
      | .failure openCodeError =>
        let claudeCodeNotFound := claudeCodeError = "claude-code-not-found"
        let openCodeNotFound := openCodeError = "opencode-not-found"
        if claudeCodeNotFound ∧ openCodeNotFound then
          .failure
            "No credentials found. Please authenticate via Claude Code or OpenCode."
        else if claudeCodeNotFound then .failure openCodeError
        else .failure claudeCodeError

/-- Result of `getTokenExpiryInfo`; `expiresAt` is the `Date` as epoch ms
(`none` for a missing expiry or an invalid `Date`). -/
structure TokenExpiryInfo where
  expiresAt : Option Int
  isExpired : Bool
  expiresIn : Option Int
deriving DecidableEq, Repr

/-- `getTokenExpiryInfo(credentials)` at clock `nowMs`: reports how long
until expiry; `expiresIn` is `null` (here `none`) once the expiry is not
in the future, never negative.  An unparseable expiry behaves like the
`NaN` arithmetic of an invalid `Date`: not expired, `expiresIn` null. -/
def getTokenExpiryInfo (credentials : OAuthCredentials) (nowMs : Int) :
    TokenExpiryInfo :=
  match credentials.expiresAt with
  | none => { expiresAt := none, isExpired := false, expiresIn := none }
  | some s =>
    match isoToMs s with
    | some t =>
      let expiresIn := t - nowMs
      { expiresAt := some t
        isExpired := decide (expiresIn ≤ 0)
        expiresIn := if expiresIn > 0 then some expiresIn else none }
    | none => { expiresAt := none, isExpired := false, expiresIn := none }

/-! ## Token refresh client and write-back (`data/index.ts`)

HTTP exchanges are modelled by `FetchOutcome`: a transport failure with
its message, or a response with status, body text and the result of
`JSON.parse` on the body (`Except.error` carries the parse exception
message).  Fields of parsed bodies are read at the types the source casts
them to.
-/

/-- Outcome of one `fetch` call. -/
inductive FetchOutcome where
  | netError (msg : String)
  | response (status : Nat) (bodyText : String) (bodyJson : Except String Json)

/-- `response.ok`: status in the 2xx range. -/
def FetchOutcome.okStatus (status : Nat) : Bool :=
  200 ≤ status ∧ status ≤ 299

/-- Result of `refreshOAuthToken` (`RefreshResult` in the source): note
the failure side carries only a message string. -/
inductive RefreshResult where
  | success (credentials : OAuthCredentials)
  | failure (error : String)
deriving DecidableEq, Repr

/-- A present field used as the message by `??` chaining: `null` and a
missing field fall through; the value is read at its declared string
type. -/
def asNullishStr (o : Option Json) : Option String :=
  match o with
  | some (.str s) => some s
  | _ => none

/-- `refreshOAuthToken(refreshToken)` at clock `nowMs` against a token
endpoint whose behaviour is `outcome`.  On a 2xx response the body is
read at the shape the source casts it to; a missing `access_token` is
modelled as the empty string (JavaScript would propagate `undefined`),
and a missing or non-numeric `expires_in` makes `new Date(...)` invalid
so `toISOString` throws, which the catch-all turns into the network-error
message.  On non-2xx the message is `error_description` → `error` →
`Token refresh failed: <status>`.  On transport failure the message gets
the fixed `Token refresh network error: ` marker.  Both failure shapes
are the same constructor carrying only a string. -/
def refreshOAuthToken (outcome : FetchOutcome) (nowMs : Int) : RefreshResult :=
  match outcome with
  | .netError msg => .failure ("Token refresh network error: " ++ msg)
  | .response status _bodyText bodyJson =>
    if FetchOutcome.okStatus status then
      match bodyJson with
      | .error m => .failure ("Token refresh network error: " ++ m)
      | .ok j =>
        let accessToken := ((jsGet j "access_token").bind asStr).getD ""
        let refreshToken := (jsGet j "refresh_token").bind asStr
        match (jsGet j "expires_in").bind asInt with
        | some expiresIn =>
          .success
            { accessToken, refreshToken
              expiresAt := some (msToIso (nowMs + expiresIn * 1000))
              scopes := none }
        | none => .failure "Token refresh network error: Invalid time value"
    else
      let fallback := "Token refresh failed: " ++ toString status
      let message :=
        match bodyJson with
        | .error _ => fallback
        | .ok j =>
          match asNullishStr (jsGet j "error_description") with
          | some m => m
          | none =>
            match asNullishStr (jsGet j "error") with
            | some m => m
            | none => fallback
      .failure message

/-- `writeTestCredentials(filePath, credentials)`: the content written to
the test override file.  An unparseable `expiresAt` string yields `NaN`,
which `JSON.stringify` serializes as `null`. -/
def writeTestCredentials (credentials : OAuthCredentials) : Json :=
  let expiresVal : Option Json :=
    match credentials.expiresAt with
    | some s =>
      if s ≠ "" then
        some (match isoToMs s with | some n => .num n | none => .null)
      else none
    | none => none
  .obj (setKey (setKey (setKey []
    "access_token" (some (.str credentials.accessToken)))
    "refresh_token" (credentials.refreshToken.map .str))
    "expires_at" expiresVal)

/-- `writeClaudeCodeCredentials(credentials)` given the current state of
`~/.claude/.credentials.json`: merges `accessToken` / `refreshToken` /
`expiresAt` into the existing `claudeAiOauth` entry (sibling fields
survive; `scopes` is not written) and keeps every other top-level field.
A missing or corrupted file starts from `{}`; a file whose JSON root is
not an object makes the property assignment throw (`none`, surfaced as
`false` by `writeBackCredentials`). -/
def writeClaudeCodeCredentials (existing : FileState)
    (credentials : OAuthCredentials) : Option Json :=
  let rootFields : Option (List (String × Json)) :=
    match existing with
    | .missing => some []
    | .badJson _ => some []
    | .parsed (.obj fs) => some fs
    | .parsed _ => none
  match rootFields with
  | none => none
  | some fs =>
    let claudeAiOauth :=
      match jLookup "claudeAiOauth" fs with
      | some (.obj inner) => inner
      | _ => []
    let newInner := setKey (setKey (setKey claudeAiOauth
      "accessToken" (some (.str credentials.accessToken)))
      "refreshToken" (credentials.refreshToken.map .str))
      "expiresAt" (credentials.expiresAt.map .str)
    some (.obj (setKey fs "claudeAiOauth" (some (.obj newInner))))

/-- `writeOpenCodeCredentials(credentials)` given the current state of
`~/.local/share/opencode/auth.json`: replaces the `anthropic` entry
wholesale with `{type, access, refresh, expires}` (epoch ms) and keeps
every other top-level field. -/
def writeOpenCodeCredentials (existing : FileState)
    (credentials : OAuthCredentials) : Option Json :=
  let rootFields : Option (List (String × Json)) :=
    match existing with
    | .missing => some []
    | .badJson _ => some []
    | .parsed (.obj fs) => some fs
    | .parsed _ => none
  match rootFields with
  | none => none
  | some fs =>
    let expiresVal : Option Json :=
      match credentials.expiresAt with
      | some s =>
        if s ≠ "" then
          some (match isoToMs s with | some n => .num n | none => .null)
        else none
      | none => none
    let anthropic := setKey (setKey (setKey (setKey []
      "type" (some (.str "oauth")))
      "access" (some (.str credentials.accessToken)))
      "refresh" (credentials.refreshToken.map .str))
      "expires" expiresVal
    some (.obj (setKey fs "anthropic" (some (.obj anthropic))))

/-- Effect of `writeBackCredentials`: the returned boolean and the new
content of whichever file was rewritten. -/
structure WriteBackEffect where
  returned : Bool
  testFile : Option Json
  claudeCodeFile : Option Json
  openCodeFile : Option Json

/-- `writeBackCredentials(source, credentials)`: in test mode the test
file is rewritten regardless of `source`; otherwise the source-appropriate
credential file is rewritten; any exception yields `false` with nothing
written. -/
def writeBackCredentials (env : CredStoreEnv) (source : CredentialSource)
    (credentials : OAuthCredentials) : WriteBackEffect :=
  match env.testCredentials with
  | some _ =>
    { returned := true, testFile := some (writeTestCredentials credentials)
      claudeCodeFile := none, openCodeFile := none }
  | none =>
    match source with
    | .claudeCode =>
      match writeClaudeCodeCredentials env.claudeCodeFile credentials with
      | some doc =>
        { returned := true, testFile := none
          claudeCodeFile := some doc, openCodeFile := none }
      | none =>
        { returned := false, testFile := none
          claudeCodeFile := none, openCodeFile := none }
    | .opencode =>
      match writeOpenCodeCredentials env.openCodeFile credentials with
      | some doc =>
        { returned := true, testFile := none
          claudeCodeFile := none, openCodeFile := some doc }
      | none =>
        { returned := false, testFile := none
          claudeCodeFile := none, openCodeFile := none }

/-! ## Usage API client (`oauth-api.ts`)

`ClaudeOAuthApi.request` is the retry-once-on-401 core.  The environment
gives the credential store state at each read (`store i` is the state
seen by the i-th `loadOAuthCredentials` call of this request — the store
may be rewritten between reads by another process) and the HTTP outcome
of each issued request (`http i token`).  The embedding also returns the
trace of bearer tokens of the HTTP requests actually issued, so that
"retries exactly once" and "no second HTTP request" are statable.
-/

/-- The error taxonomy of `OAuthApiError.type`. -/
inductive ApiErrorType where
  | api_error
  | authentication_error
  | rate_limit_error
  | credentials_error
deriving DecidableEq, Repr

/-- `OAuthApiError`: tagged error of the usage API client. -/
structure OAuthApiError where
  type : ApiErrorType
  message : String
  statusCode : Nat
deriving DecidableEq, Repr

/-- `OAuthApiResult<T>`: tagged success/failure; the client never throws
across its boundary. -/
inductive OAuthApiResult (α : Type) where
  | success (data : α)
  | failure (error : OAuthApiError)
deriving DecidableEq, Repr

/-- `parseErrorMessage(responseBody)`: `error.message` (when `error` is an
object) → `error` (when a string) → `message` → the raw body; an
unparseable body is returned as-is. -/
def parseErrorMessage (bodyText : String) (bodyJson : Except String Json) :
    String :=
  match bodyJson with
  | .error _ => bodyText
  | .ok j =>
    let fromMessageField : Option String :=
      match jsGet j "message" with
      | some (.str m) => if m ≠ "" then some m else none
      | _ => none
    match jsGet j "error" with
    | some (.obj ef) =>
      match jLookup "message" ef with
      | some (.str m) =>
        if m ≠ "" then m else fromMessageField.getD bodyText
      | _ => fromMessageField.getD bodyText
    | some (.str e) => e
    | _ => fromMessageField.getD bodyText

/-- `createError(statusCode, responseBody)`: classifies 401/403 as
`authentication_error`, 429 as `rate_limit_error`, anything else
(including status 0 transport failures) as `api_error`. -/
def createError (statusCode : Nat) (bodyText : String)
    (bodyJson : Except String Json) : OAuthApiError :=
  let t : ApiErrorType :=
    if statusCode = 401 ∨ statusCode = 403 then .authentication_error
    else if statusCode = 429 then .rate_limit_error
    else .api_error
  { type := t, message := parseErrorMessage bodyText bodyJson, statusCode }

/-- The mutable state of a `ClaudeOAuthApi` instance.  (`credentialSource`
is stored and passed to `loadOAuthCredentials`, whose implementation takes
no argument and always runs the full priority order.) -/
structure ClientState where
  credentials : Option OAuthCredentials
  credentialSource : Option CredentialSource
deriving DecidableEq, Repr

/-- Environment of one `request` call: the credential store state seen by
the i-th store read, and the outcome of the i-th HTTP request when issued
with a given bearer token. -/
structure ApiEnv where
  store : Nat → CredStoreEnv
  http : Nat → String → FetchOutcome

/-- `ensureCredentials()`: return the cached credential, or load it from
the store (its error propagates as a `credentials_error`).  Also returns
the updated store read count. -/
def ensureCredentials (env : ApiEnv) (st : ClientState) (readCount : Nat) :
    ClientState × Nat × OAuthApiResult OAuthCredentials :=
  match st.credentials with
  | some c => (st, readCount, .success c)
  | none =>
    match loadOAuthCredentials (env.store readCount) with
    | .failure e =>
      (st, readCount + 1,
        .failure { type := .credentials_error, message := e, statusCode := 0 })
    | .success creds _src =>
      ({ st with credentials := some creds }, readCount + 1, .success creds)

/-- `request(endpoint, isRetry = true)`: the retry attempt.  On 401/403 it
drops the cached credential but performs no further store read and no
further request.  Returns the new state, the result, and the bearer
tokens of the HTTP requests issued. -/
def requestRetry (env : ApiEnv) (st : ClientState)
    (readCount httpCount : Nat) :
    ClientState × OAuthApiResult Json × List String :=
  match ensureCredentials env st readCount with
  | (st', _, .failure e) => (st', .failure e, [])
  | (st', _, .success creds) =>
    let usedToken := creds.accessToken
    match env.http httpCount usedToken with
    | .netError msg =>
      (st', .failure (createError 0 msg (.error "SyntaxError")), [usedToken])
    | .response status bodyText bodyJson =>
      if FetchOutcome.okStatus status then
        match bodyJson with
        | .ok j => (st', .success j, [usedToken])
        | .error m =>
          (st', .failure (createError 0 m (.error "SyntaxError")), [usedToken])
      else
        let st'' :=
          if status = 401 ∨ status = 403 then
            { st' with credentials := none }
          else st'
        (st'', .failure (createError status bodyText bodyJson), [usedToken])

/-- `request(endpoint)` (first attempt, `isRetry = false`): on 401/403 it
drops the cached credential, re-reads the store, and retries exactly once
when the re-read yields a different access token; otherwise it fails
immediately with the original response's error. -/
def request (env : ApiEnv) (st : ClientState) :
    ClientState × OAuthApiResult Json × List String :=
  match ensureCredentials env st 0 with
  | (st', _, .failure e) => (st', .failure e, [])
  | (st', rc, .success creds) =>
    let usedToken := creds.accessToken
    match env.http 0 usedToken with
    | .netError msg =>
      (st', .failure (createError 0 msg (.error "SyntaxError")), [usedToken])
    | .response status bodyText bodyJson =>
      if FetchOutcome.okStatus status then
        match bodyJson with
        | .ok j => (st', .success j, [usedToken])
        | .error m =>
          (st', .failure (createError 0 m (.error "SyntaxError")), [usedToken])
      else
        if status = 401 ∨ status = 403 then
          let st1 := { st' with credentials := none }
          match loadOAuthCredentials (env.store rc) with
          | .success refreshedCreds _src =>
            if refreshedCreds.accessToken ≠ usedToken then
              let st2 := { st1 with credentials := some refreshedCreds }
              match requestRetry env st2 (rc + 1) 1 with
              | (st3, res, toks) => (st3, res, usedToken :: toks)
            else
              (st1, .failure (createError status bodyText bodyJson), [usedToken])
          | .failure _ =>
            (st1, .failure (createError status bodyText bodyJson), [usedToken])
        else
          (st', .failure (createError status bodyText bodyJson), [usedToken])

/-- `getRateLimitSummary()`: joins the results of the parallel usage and
profile fetches — the usage failure wins, then the profile failure, else
the pair of both payloads. -/
def getRateLimitSummary {α β : Type} (usageResult : OAuthApiResult α)
    (profileResult : OAuthApiResult β) : OAuthApiResult (α × β) :=
  match usageResult with
  | .failure e => .failure e
  | .success u =>
    match profileResult with
    | .failure e => .failure e
    | .success p => .success (u, p)

/-! ## Pane placement controller (`cli/pane-manager.ts`)

`moveMonitorPane` shells out to tmux; we model the layout-relevant state
of the session (where the monitor pane sits, whether it is parked in the
temporary `_monitor_tmp` window, and the installed `window-layout-changed`
auto-resize hook) and an environment saying which of the issued tmux
commands fail.  A `join-pane` with `-h -b` puts the monitor pane on the
left, `-h` on the right, `-v -b` on top and `-v` at the bottom of the
main pane; the recovery command in the catch handler is the fixed
`join-pane -v -t <session>:0.0`, i.e. a bottom placement.
-/

/-- The four pane positions. -/
inductive PanePosition where
  | top
  | bottom
  | left
  | right
deriving DecidableEq, Repr

/-- `PaneMoveDirection` in the source. -/
inductive PaneMoveDirection where
  | up
  | down
  | left
  | right
deriving DecidableEq, Repr

/-- Position the move direction targets. -/
def posOfDirection : PaneMoveDirection → PanePosition
  | .up => .top
  | .down => .bottom
  | .left => .left
  | .right => .right

/-- `MoveResult` in the source. -/
structure MoveResult where
  success : Bool
  newCompactMode : Bool
deriving DecidableEq, Repr

/-- Layout-relevant state of the tmux session: the monitor pane's position
in the main window (`none` while it is not there), whether it sits in the
temporary holding window, and the auto-resize hook (the position it pins,
if installed). -/
structure TmuxLayout where
  monitorAt : Option PanePosition
  monitorInTmpWindow : Bool
  layoutHook : Option PanePosition
deriving DecidableEq, Repr

/-- Which of the tmux commands issued by one move fail. -/
structure TmuxEnv where
  unhookFails : Bool
  breakFails : Bool
  joinFails : Bool
  selectFails : Bool
  hookSetFails : Bool
  recoverJoinFails : Bool
deriving DecidableEq, Repr

/-- The catch handler of a failed move: a best-effort
`join-pane -v -t <session>:0.0 -s <session>:_monitor_tmp`, which succeeds
only while the pane is still parked in the temporary window and places it
at the bottom. -/
def recoverMonitorPane (env : TmuxEnv) (layout : TmuxLayout) : TmuxLayout :=
  if layout.monitorInTmpWindow ∧ ¬ env.recoverJoinFails then
    { monitorAt := some .bottom, monitorInTmpWindow := false
      layoutHook := layout.layoutHook }
  else layout

/-- `moveMonitorPane(tmuxSession, monitorPaneId, direction,
currentCompactMode)`: unhook, break the pane out, join it at the new
position, re-title, and (for top/bottom) install the auto-resize hook;
any failure after the break runs the recovery handler and reports
`success: false` with the compact mode unchanged. -/
def moveMonitorPane (env : TmuxEnv) (layout : TmuxLayout)
    (direction : PaneMoveDirection) (currentCompactMode : Bool) :
    TmuxLayout × MoveResult :=
  let l1 := if env.unhookFails then layout else { layout with layoutHook := none }
  if env.breakFails then
    (l1, { success := false, newCompactMode := currentCompactMode })
  else
    let l2 := { l1 with monitorAt := none, monitorInTmpWindow := true }
    if env.joinFails then
      (recoverMonitorPane env l2,
        { success := false, newCompactMode := currentCompactMode })
    else
      let l3 := { l2 with monitorAt := some (posOfDirection direction)
                          monitorInTmpWindow := false }
      if env.selectFails then
        (recoverMonitorPane env l3,
          { success := false, newCompactMode := currentCompactMode })
      else
        match direction with
        | .left => (l3, { success := true, newCompactMode := false })
        | .right => (l3, { success := true, newCompactMode := false })
        | .up =>
          if env.hookSetFails then
            (recoverMonitorPane env l3,
              { success := false, newCompactMode := currentCompactMode })
          else
            ({ l3 with layoutHook := some .top },
              { success := true, newCompactMode := true })
        | .down =>
          if env.hookSetFails then
            (recoverMonitorPane env l3,
              { success := false, newCompactMode := currentCompactMode })
          else
            ({ l3 with layoutHook := some .bottom },
              { success := true, newCompactMode := true })

/-! ## Monitor engine fetch cycle

Modelled from the spec: the Monitor Engine implementation file
(`src/monitor/oauth-monitor.ts`) is not among the sources at hand — only
its callers are — so its single-cycle state transition is taken from the
specification: `fetch()` calls the summary fetch, then atomically replaces
`usage`/`profile`/`lastFetch` and clears `lastError` on success, or sets
`lastError` leaving the previous `usage`/`profile` (and `lastFetch`) in
place on failure.
-/

/-- Modelled from the spec: the Monitor State record
`(usage?, profile?, lastFetch?, lastError?, isRunning)` owned by the
Monitor Engine; the usage and profile payload types are abstract. -/
structure MonitorState (α β : Type) where
  usage : Option α
  profile : Option β
  lastFetch : Option Int
  lastError : Option String
  isRunning : Bool
deriving DecidableEq, Repr

/-- Modelled from the spec: the state transition of one `fetch()` cycle,
applied to the result of the summary fetch observed at clock `nowMs`. -/
def fetchCycle {α β : Type} (st : MonitorState α β)
    (result : OAuthApiResult (α × β)) (nowMs : Int) : MonitorState α β :=
  match result with
  | .success (u, p) =>
    { usage := some u, profile := some p, lastFetch := some nowMs
      lastError := none, isRunning := st.isRunning }
  | .failure e => { st with lastError := some e.message }

/-! ## Concrete instances

Concrete environments and records used by witnesses and counterexamples.
-/

/-- A credential store with no source present at all. -/
def envNoStores : CredStoreEnv :=
  { testCredentials := none, platformDarwin := false,
    keychain := .unavailable, claudeCodeFile := .missing,
    openCodeFile := .missing }

/-- A structurally valid OpenCode auth document. -/
def ocDocValid : Json :=
  .obj [("anthropic", .obj
    [("type", .str "oauth"), ("access", .str "sk-ant-oat01-oc"),
     ("refresh", .str "rt"), ("expires", .num 1750000000000)])]

/-- The credential record `ocDocValid` denotes. -/
def ocCred : OAuthCredentials :=
  { accessToken := "sk-ant-oat01-oc", refreshToken := some "rt",
    expiresAt := some "2025-06-15T15:06:40.000Z", scopes := none }

/-- Claude Code not found, OpenCode valid. -/
def envPriorityA : CredStoreEnv :=
  { envNoStores with openCodeFile := .parsed ocDocValid }

/-- Claude Code credentials file present but holding invalid JSON;
OpenCode absent. -/
def envMalformedClaude : CredStoreEnv :=
  { envNoStores with
    claudeCodeFile := .badJson "Unexpected token x in JSON at position 0" }

/-- Claude Code credentials file malformed; OpenCode valid. -/
def envMalformedClaudeWithOpenCode : CredStoreEnv :=
  { envMalformedClaude with openCodeFile := .parsed ocDocValid }

/-- A record carrying a `scopes` array, for the write-back round trip. -/
def recWithScopes : OAuthCredentials :=
  { accessToken := "sk-ant-oat01-w", refreshToken := some "rt-1",
    expiresAt := some "2025-06-15T15:06:40.000Z",
    scopes := some ["user:inference"] }

/-- The claude-code credentials file content produced by writing
`recWithScopes` back to the (fresh) claude-code source. -/
def docAfterClaudeWrite : Json :=
  ((writeBackCredentials envNoStores .claudeCode recWithScopes).claudeCodeFile).getD .null

/-- The store after that write-back. -/
def envAfterClaudeWrite : CredStoreEnv :=
  { envNoStores with claudeCodeFile := FileState.parsed docAfterClaudeWrite }

/-- Whether the existing claude-code file carries no `scopes` field inside
its `claudeAiOauth` entry (the write-back never writes `scopes`, so a
round trip can only preserve scopes that were not there to begin with). -/
def claudeScopesFree (fs : List (String × Json)) : Bool :=
  match jLookup "claudeAiOauth" fs with
  | some (.obj inner) => (jLookup "scopes" inner).isNone
  | _ => true

/-- Existing claude-code file states whose rewrite both succeeds (the JSON
root, if present, is an object) and introduces no foreign `scopes`. -/
def claudeWriteReady : FileState → Bool
  | .missing => true
  | .badJson _ => true
  | .parsed (.obj fs) => claudeScopesFree fs
  | .parsed _ => false

/-- Existing opencode file states whose rewrite succeeds. -/
def openWriteReady : FileState → Bool
  | .missing => true
  | .badJson _ => true
  | .parsed (.obj _) => true
  | .parsed _ => false

/-- Whether an optional expiry string survives the opencode schema's
ISO → epoch-ms → ISO conversion: it must be the canonical rendering of a
non-zero timestamp (or absent). -/
def expiresCanonical : Option String → Bool
  | none => true
  | some s =>
    if s = "" then false
    else
      match isoToMs s with
      | some n => if n = 0 then false else msToIso n == s
      | none => false

/-- An existing claude-code credentials file with an unrelated top-level
field and an unrelated sibling inside `claudeAiOauth`. -/
def fsWithSiblings : List (String × Json) :=
  [("other", .str "keep"),
   ("claudeAiOauth", .obj
     [("accessToken", .str "sk-ant-oat01-prev"),
      ("subscriptionType", .str "max")]),
   ("trailing", .num 7)]

/-- The claude-code file content after rewriting `fsWithSiblings`. -/
def docWrittenClaude : Json :=
  (writeClaudeCodeCredentials (.parsed (.obj fsWithSiblings)) recWithScopes).getD .null

/-- The opencode file content after rewriting `fsWithSiblings` (reusing
the same unrelated top-level fields). -/
def docWrittenOpenCode : Json :=
  (writeOpenCodeCredentials (.parsed (.obj fsWithSiblings)) recWithScopes).getD .null

/-- A cached client credential about to be rejected. -/
def oldCred : OAuthCredentials :=
  { accessToken := "sk-ant-oat01-old", refreshToken := none,
    expiresAt := none, scopes := none }

/-- Client state holding `oldCred` in memory. -/
def clientStateOld : ClientState := { credentials := some oldCred, credentialSource := none }

/-- A claude-code credentials document holding a given access token. -/
def claudeDocWithToken (tok : String) : Json :=
  .obj [("claudeAiOauth", .obj [("accessToken", .str tok)])]

/-- Store containing a different (externally refreshed) token. -/
def storeEnvNewToken : CredStoreEnv :=
  { envNoStores with
    claudeCodeFile := FileState.parsed (claudeDocWithToken "sk-ant-oat01-new") }

/-- Store still containing the rejected token. -/
def storeEnvSameToken : CredStoreEnv :=
  { envNoStores with
    claudeCodeFile := FileState.parsed (claudeDocWithToken "sk-ant-oat01-old") }

/-- API environment: first request is rejected with 401, a retry would
succeed; the store holds a different token. -/
def apiEnvNewToken : ApiEnv :=
  { store := fun _ => storeEnvNewToken
    http := fun i _t =>
      if i = 0 then .response 401 "denied" (.error "SyntaxError")
      else .response 200 "ok" (.ok (.str "payload")) }

/-- API environment: first request is rejected with 401; the store still
holds the rejected token. -/
def apiEnvSameToken : ApiEnv :=
  { apiEnvNewToken with store := fun _ => storeEnvSameToken }

/-! ## Helper lemmas -/

theorem jLookup_insertKey_self (fs : List (String × Json)) (k : String) (v : Json) :
    jLookup k (insertKey fs k v) = some v := by
  induction fs with
  | nil => simp [insertKey, jLookup]
  | cons hd tl ih =>
    obtain ⟨k', v'⟩ := hd
    by_cases h : k' = k <;> simp [insertKey, jLookup, h, ih]

theorem jLookup_insertKey_ne (fs : List (String × Json)) (k k' : String) (v : Json)
    (h : k ≠ k') : jLookup k (insertKey fs k' v) = jLookup k fs := by
  induction fs with
  | nil => simp [insertKey, jLookup, Ne.symm h]
  | cons hd tl ih =>
    obtain ⟨k'', v''⟩ := hd
    by_cases h1 : k'' = k' <;> by_cases h2 : k'' = k <;>
      simp_all [insertKey, jLookup, Ne.symm h]

theorem jLookup_eraseKey_self (fs : List (String × Json)) (k : String) :
    jLookup k (eraseKey fs k) = none := by
  induction fs with
  | nil => simp [eraseKey, jLookup]
  | cons hd tl ih =>
    obtain ⟨k', v'⟩ := hd
    by_cases h : k' = k <;> simp [eraseKey, jLookup, h, ih]

theorem jLookup_eraseKey_ne (fs : List (String × Json)) (k k' : String)
    (h : k ≠ k') : jLookup k (eraseKey fs k') = jLookup k fs := by
  induction fs with
  | nil => simp [eraseKey]
  | cons hd tl ih =>
    obtain ⟨k'', v''⟩ := hd
    by_cases h1 : k'' = k' <;> by_cases h2 : k'' = k <;>
      simp_all [eraseKey, jLookup]

theorem jLookup_setKey_self_some (fs : List (String × Json)) (k : String) (v : Json) :
    jLookup k (setKey fs k (some v)) = some v :=
  jLookup_insertKey_self fs k v

theorem jLookup_setKey_self_none (fs : List (String × Json)) (k : String) :
    jLookup k (setKey fs k none) = none :=
  jLookup_eraseKey_self fs k

theorem jLookup_setKey_ne (fs : List (String × Json)) (k k' : String)
    (v : Option Json) (h : k ≠ k') :
    jLookup k (setKey fs k' v) = jLookup k fs := by
  cases v with
  | none => exact jLookup_eraseKey_ne fs k k' h
  | some jv => exact jLookup_insertKey_ne fs k k' jv h

theorem jLookup_setKey_opt (fs : List (String × Json)) (k : String)
    (v : Option Json) : jLookup k (setKey fs k v) = v := by
  cases v with
  | none => exact jLookup_setKey_self_none fs k
  | some jv => exact jLookup_setKey_self_some fs k jv

theorem strStartsWith_ne_empty (s p : String) (hp : p ≠ "")
    (h : strStartsWith s p = true) : s ≠ "" := by
  intro hs
  subst hs
  cases hpd : p.data with
  | nil => exact hp (by cases p; simp_all)
  | cons c cs => simp [strStartsWith, hpd, charsStartWith] at h

theorem loadFromOpenCode_source (env : CredStoreEnv) (c : OAuthCredentials)
    (s : CredentialSource) (h : loadFromOpenCode env = .success c s) :
    s = .opencode := by
  unfold loadFromOpenCode at h
  repeat' split at h
  all_goals cases h
  all_goals rfl

theorem requestRetry_cached (env : ApiEnv) (st : ClientState)
    (c : OAuthCredentials) (rc hc : Nat) (h : st.credentials = some c) :
    (requestRetry env st rc hc).2.2 = [c.accessToken] ∧
    ∀ (txt : String) (j : Json),
      env.http hc c.accessToken = .response 200 txt (.ok j) →
      (requestRetry env st rc hc).2.1 = .success j := by
  have hens : ensureCredentials env st rc = (st, rc, .success c) := by
    simp [ensureCredentials, h]
  constructor
  · unfold requestRetry
    rw [hens]
    cases hh : env.http hc c.accessToken with
    | netError m => simp [hh]
    | response s t b =>
      by_cases hok : FetchOutcome.okStatus s = true
      · cases b <;> simp [hh, hok]
      · simp only [Bool.not_eq_true] at hok
        simp [hh, hok]
  · intro txt j hh
    unfold requestRetry
    rw [hens]
    simp [hh, FetchOutcome.okStatus]

theorem parseClaudeCodeCredentials_success (parsed : Json)
    (inner : List (String × Json)) (a : String) (rt ea : Option String)
    (h1 : jsGet parsed "claudeAiOauth" = some (.obj inner))
    (hat : jLookup "accessToken" inner = some (.str a))
    (hne : a ≠ "")
    (htok : strStartsWith a "sk-ant-oat" = true)
    (hrt : jLookup "refreshToken" inner = rt.map .str)
    (hea : jLookup "expiresAt" inner = ea.map .str)
    (hsc : jLookup "scopes" inner = none) :
    parseClaudeCodeCredentials parsed =
      .ret (.success ⟨a, rt, ea, none⟩ .claudeCode) := by
  unfold parseClaudeCodeCredentials
  cases rt <;> cases ea <;>
    simp [h1, hat, hrt, hea, hsc, jsTruthy, hne, htok, asStr]

theorem loadFromOpenCode_success (env : CredStoreEnv) (doc : Json)
    (aFields : List (String × Json)) (a : String) (rt : Option String)
    (eaN : Option Int)
    (hfile : env.openCodeFile = .parsed doc)
    (hanth : jsGet doc "anthropic" = some (.obj aFields))
    (hacc : jLookup "access" aFields = some (.str a))
    (hne : a ≠ "")
    (htok : strStartsWith a "sk-ant-oat" = true)
    (hrt : jLookup "refresh" aFields = rt.map .str)
    (hexp : jLookup "expires" aFields = eaN.map .num) :
    loadFromOpenCode env =
      .success
        ⟨a, rt,
          (match eaN with
            | some n => if n ≠ 0 then some (msToIso n) else none
            | none => none), none⟩ .opencode := by
  unfold loadFromOpenCode
  cases rt <;> cases eaN <;>
    simp [hfile, hanth, hacc, hrt, hexp, jsTruthy, hne, htok, asStr, asInt]

theorem load_of_claude_written (env : CredStoreEnv) (a : String)
    (rt ea : Option String) (fs base : List (String × Json))
    (htest : env.testCredentials = none)
    (hdarwin : env.platformDarwin = false)
    (hne : a ≠ "")
    (htok : strStartsWith a "sk-ant-oat" = true)
    (hbsc : jLookup "scopes" base = none) :
    loadOAuthCredentials { env with claudeCodeFile := FileState.parsed (.obj
      (setKey fs "claudeAiOauth" (some (.obj (setKey (setKey (setKey base
        "accessToken" (some (.str a)))
        "refreshToken" (rt.map .str))
        "expiresAt" (ea.map .str)))))) } =
      .success ⟨a, rt, ea, none⟩ .claudeCode := by
  have hat : jLookup "accessToken" (setKey (setKey (setKey base
      "accessToken" (some (.str a)))
      "refreshToken" (rt.map .str))
      "expiresAt" (ea.map .str)) = some (.str a) := by
    rw [jLookup_setKey_ne _ _ _ _ (by decide),
      jLookup_setKey_ne _ _ _ _ (by decide), jLookup_setKey_self_some]
  have hrt : jLookup "refreshToken" (setKey (setKey (setKey base
      "accessToken" (some (.str a)))
      "refreshToken" (rt.map .str))
      "expiresAt" (ea.map .str)) = rt.map .str := by
    rw [jLookup_setKey_ne _ _ _ _ (by decide), jLookup_setKey_opt]
  have hea : jLookup "expiresAt" (setKey (setKey (setKey base
      "accessToken" (some (.str a)))
      "refreshToken" (rt.map .str))
      "expiresAt" (ea.map .str)) = ea.map .str := by
    rw [jLookup_setKey_opt]
  have hsc : jLookup "scopes" (setKey (setKey (setKey base
      "accessToken" (some (.str a)))
      "refreshToken" (rt.map .str))
      "expiresAt" (ea.map .str)) = none := by
    rw [jLookup_setKey_ne _ _ _ _ (by decide),
      jLookup_setKey_ne _ _ _ _ (by decide),
      jLookup_setKey_ne _ _ _ _ (by decide), hbsc]
  have hparse := parseClaudeCodeCredentials_success
    (.obj (setKey fs "claudeAiOauth" (some (.obj (setKey (setKey (setKey base
      "accessToken" (some (.str a)))
      "refreshToken" (rt.map .str))
      "expiresAt" (ea.map .str))))))
    (setKey (setKey (setKey base
      "accessToken" (some (.str a)))
      "refreshToken" (rt.map .str))
      "expiresAt" (ea.map .str))
    a rt ea
    (by simp [jsGet, jLookup_setKey_self_some]) hat hne htok hrt hea hsc
  simp [loadOAuthCredentials, htest, loadFromClaudeCode,
    loadFromClaudeCodeKeychain, hdarwin, loadFromClaudeCodeFile, hparse]

theorem load_of_opencode_written (env : CredStoreEnv) (a : String)
    (rt : Option String) (eaN : Option Int) (fs : List (String × Json))
    (htest : env.testCredentials = none)
    (hdarwin : env.platformDarwin = false)
    (hclaude : env.claudeCodeFile = .missing)
    (hne : a ≠ "")
    (htok : strStartsWith a "sk-ant-oat" = true) :
    loadOAuthCredentials { env with openCodeFile := FileState.parsed (.obj
      (setKey fs "anthropic" (some (.obj (setKey (setKey (setKey (setKey []
        "type" (some (.str "oauth")))
        "access" (some (.str a)))
        "refresh" (rt.map .str))
        "expires" (eaN.map .num)))))) } =
      .success
        ⟨a, rt,
          (match eaN with
            | some n => if n ≠ 0 then some (msToIso n) else none
            | none => none), none⟩ .opencode := by
  have hacc : jLookup "access" (setKey (setKey (setKey (setKey []
      "type" (some (.str "oauth")))
      "access" (some (.str a)))
      "refresh" (rt.map .str))
      "expires" (eaN.map .num)) = some (.str a) := by
    rw [jLookup_setKey_ne _ _ _ _ (by decide),
      jLookup_setKey_ne _ _ _ _ (by decide), jLookup_setKey_self_some]
  have hrt : jLookup "refresh" (setKey (setKey (setKey (setKey []
      "type" (some (.str "oauth")))
      "access" (some (.str a)))
      "refresh" (rt.map .str))
      "expires" (eaN.map .num)) = rt.map .str := by
    rw [jLookup_setKey_ne _ _ _ _ (by decide), jLookup_setKey_opt]
  have hexp : jLookup "expires" (setKey (setKey (setKey (setKey []
      "type" (some (.str "oauth")))
      "access" (some (.str a)))
      "refresh" (rt.map .str))
      "expires" (eaN.map .num)) = eaN.map .num := by
    rw [jLookup_setKey_opt]
  have hoc := loadFromOpenCode_success
    { env with openCodeFile := FileState.parsed (.obj
      (setKey fs "anthropic" (some (.obj (setKey (setKey (setKey (setKey []
        "type" (some (.str "oauth")))
        "access" (some (.str a)))
        "refresh" (rt.map .str))
        "expires" (eaN.map .num)))))) }
    (.obj (setKey fs "anthropic" (some (.obj (setKey (setKey (setKey (setKey []
      "type" (some (.str "oauth")))
      "access" (some (.str a)))
      "refresh" (rt.map .str))
      "expires" (eaN.map .num))))))
    (setKey (setKey (setKey (setKey []
      "type" (some (.str "oauth")))
      "access" (some (.str a)))
      "refresh" (rt.map .str))
      "expires" (eaN.map .num))
    a rt eaN rfl
    (by simp [jsGet, jLookup_setKey_self_some]) hacc hne htok hrt hexp
  have hcc : loadFromClaudeCode { env with openCodeFile := FileState.parsed (.obj
      (setKey fs "anthropic" (some (.obj (setKey (setKey (setKey (setKey []
        "type" (some (.str "oauth")))
        "access" (some (.str a)))
        "refresh" (rt.map .str))
        "expires" (eaN.map .num)))))) } = .failure "claude-code-not-found" := by
    simp [loadFromClaudeCode, loadFromClaudeCodeKeychain, hdarwin,
      loadFromClaudeCodeFile, hclaude]
  simp only [htest] at hcc hoc
  simp [loadOAuthCredentials, htest, hcc, hoc]
  cases eaN <;> simp

/-! ## Claim theorems -/

/-- Claim C4 (counterexample): write-back followed by an immediate load
does not return the written record unchanged — the claude-code writer
never writes `scopes`, so a record carrying a scopes array comes back
with `scopes` erased. -/
theorem writeBack_load_does_not_roundtrip_scopes :
    loadOAuthCredentials envAfterClaudeWrite ≠
      .success recWithScopes .claudeCode ∧
    loadOAuthCredentials envAfterClaudeWrite =
      .success { recWithScopes with scopes := none } .claudeCode ∧
    (writeBackCredentials envNoStores .claudeCode recWithScopes).returned = true := by
  refine ⟨by decide, by decide, by decide⟩

/-- Claim C4 (amended): write-back followed by an immediate load (test
mode off, no keychain shadowing, no other writer) round-trips
`accessToken`, `refreshToken` and `expiresAt` and reports the written
source; `scopes` is not written back, so the round trip holds for records
whose `scopes` is absent (and whose token has the required shape); for
the opencode source the expiry must additionally be the canonical ISO
rendering of a non-zero timestamp, since that schema stores epoch
milliseconds. -/
theorem writeBack_load_roundtrip_on_written_fields
    (env : CredStoreEnv) (rec : OAuthCredentials)
    (htest : env.testCredentials = none)
    (hdarwin : env.platformDarwin = false)
    (htok : strStartsWith rec.accessToken "sk-ant-oat" = true)
    (hscopes : rec.scopes = none) :
    (claudeWriteReady env.claudeCodeFile = true →
      ∃ doc,
        (writeBackCredentials env .claudeCode rec).returned = true ∧
        (writeBackCredentials env .claudeCode rec).claudeCodeFile = some doc ∧
        loadOAuthCredentials { env with claudeCodeFile := .parsed doc } =
          .success rec .claudeCode) ∧
    (env.claudeCodeFile = .missing →
      openWriteReady env.openCodeFile = true →
      expiresCanonical rec.expiresAt = true →
      ∃ doc,
        (writeBackCredentials env .opencode rec).returned = true ∧
        (writeBackCredentials env .opencode rec).openCodeFile = some doc ∧
        loadOAuthCredentials { env with openCodeFile := .parsed doc } =
          .success rec .opencode) := by
  obtain ⟨a, rt, ea, sc⟩ := rec
  simp only at htok hscopes
  subst hscopes
  have hne : a ≠ "" := strStartsWith_ne_empty _ _ (by decide) htok
  constructor
  · intro hready
    have core : ∀ base : List (String × Json), jLookup "scopes" base = none →
        ∀ fs : List (String × Json),
        writeClaudeCodeCredentials env.claudeCodeFile ⟨a, rt, ea, none⟩ =
          some (.obj (setKey fs "claudeAiOauth" (some (.obj (setKey (setKey (setKey base
            "accessToken" (some (.str a)))
            "refreshToken" (rt.map .str))
            "expiresAt" (ea.map .str)))))) →
        ∃ doc,
          (writeBackCredentials env .claudeCode ⟨a, rt, ea, none⟩).returned = true ∧
          (writeBackCredentials env .claudeCode ⟨a, rt, ea, none⟩).claudeCodeFile = some doc ∧
          loadOAuthCredentials { env with claudeCodeFile := .parsed doc } =
            .success ⟨a, rt, ea, none⟩ .claudeCode := by
      intro base hbsc fs hwr
      refine ⟨.obj (setKey fs "claudeAiOauth" (some (.obj (setKey (setKey (setKey base
        "accessToken" (some (.str a)))
        "refreshToken" (rt.map .str))
        "expiresAt" (ea.map .str))))), ?_, ?_, ?_⟩
      · simp [writeBackCredentials, htest, hwr]
      · simp [writeBackCredentials, htest, hwr]
      · exact load_of_claude_written env a rt ea fs base htest hdarwin hne htok hbsc
    cases hcf : env.claudeCodeFile with
    | missing =>
      exact core [] rfl [] (by simp [hcf, writeClaudeCodeCredentials, jLookup])
    | badJson m =>
      exact core [] rfl [] (by simp [hcf, writeClaudeCodeCredentials, jLookup])
    | parsed doc0 =>
      cases doc0 with
      | obj fs =>
        rw [hcf] at hready
        simp only [claudeWriteReady] at hready
        cases hli : jLookup "claudeAiOauth" fs with
        | none =>
          exact core [] rfl fs (by simp [hcf, writeClaudeCodeCredentials, hli])
        | some v =>
          cases v with
          | obj inner =>
            unfold claudeScopesFree at hready
            rw [hli] at hready
            simp only [Option.isNone_iff_eq_none] at hready
            exact core inner hready fs
              (by simp [hcf, writeClaudeCodeCredentials, hli])
          | null => exact core [] rfl fs (by simp [hcf, writeClaudeCodeCredentials, hli])
          | bool b => exact core [] rfl fs (by simp [hcf, writeClaudeCodeCredentials, hli])
          | num n => exact core [] rfl fs (by simp [hcf, writeClaudeCodeCredentials, hli])
          | str s => exact core [] rfl fs (by simp [hcf, writeClaudeCodeCredentials, hli])
          | arr xs => exact core [] rfl fs (by simp [hcf, writeClaudeCodeCredentials, hli])
      | null => rw [hcf] at hready; simp [claudeWriteReady] at hready
      | bool b => rw [hcf] at hready; simp [claudeWriteReady] at hready
      | num n => rw [hcf] at hready; simp [claudeWriteReady] at hready
      | str s => rw [hcf] at hready; simp [claudeWriteReady] at hready
      | arr xs => rw [hcf] at hready; simp [claudeWriteReady] at hready
  · intro hclaude hoready hcanon
    have core : ∀ eaN : Option Int,
        (match eaN with
          | some n => if n ≠ 0 then some (msToIso n) else none
          | none => none) = ea →
        ∀ fs : List (String × Json),
        writeOpenCodeCredentials env.openCodeFile ⟨a, rt, ea, none⟩ =
          some (.obj (setKey fs "anthropic" (some (.obj (setKey (setKey (setKey (setKey []
            "type" (some (.str "oauth")))
            "access" (some (.str a)))
            "refresh" (rt.map .str))
            "expires" (eaN.map .num)))))) →
        ∃ doc,
          (writeBackCredentials env .opencode ⟨a, rt, ea, none⟩).returned = true ∧
          (writeBackCredentials env .opencode ⟨a, rt, ea, none⟩).openCodeFile = some doc ∧
          loadOAuthCredentials { env with openCodeFile := .parsed doc } =
            .success ⟨a, rt, ea, none⟩ .opencode := by
      intro eaN hmatch fs hwr
      refine ⟨.obj (setKey fs "anthropic" (some (.obj (setKey (setKey (setKey (setKey []
        "type" (some (.str "oauth")))
        "access" (some (.str a)))
        "refresh" (rt.map .str))
        "expires" (eaN.map .num))))), ?_, ?_, ?_⟩
      · simp [writeBackCredentials, htest, hwr]
      · simp [writeBackCredentials, htest, hwr]
      · have := load_of_opencode_written env a rt eaN fs htest hdarwin hclaude hne htok
        rw [hmatch] at this
        exact this
    cases ea with
    | none =>
      have hval : ∀ fs, writeOpenCodeCredentials env.openCodeFile ⟨a, rt, none, none⟩ =
          some (.obj (setKey fs "anthropic" (some (.obj (setKey (setKey (setKey (setKey []
            "type" (some (.str "oauth")))
            "access" (some (.str a)))
            "refresh" (rt.map .str))
            "expires" ((none : Option Int).map .num)))))) →
          ∃ doc,
            (writeBackCredentials env .opencode ⟨a, rt, none, none⟩).returned = true ∧
            (writeBackCredentials env .opencode ⟨a, rt, none, none⟩).openCodeFile = some doc ∧
            loadOAuthCredentials { env with openCodeFile := .parsed doc } =
              .success ⟨a, rt, none, none⟩ .opencode :=
        fun fs => core none rfl fs
      cases hof : env.openCodeFile with
      | missing => exact hval [] (by simp [hof, writeOpenCodeCredentials])
      | badJson m => exact hval [] (by simp [hof, writeOpenCodeCredentials])
      | parsed doc0 =>
        cases doc0 with
        | obj fs => exact hval fs (by simp [hof, writeOpenCodeCredentials])
        | null => rw [hof] at hoready; simp [openWriteReady] at hoready
        | bool b => rw [hof] at hoready; simp [openWriteReady] at hoready
        | num n => rw [hof] at hoready; simp [openWriteReady] at hoready
        | str s => rw [hof] at hoready; simp [openWriteReady] at hoready
        | arr xs => rw [hof] at hoready; simp [openWriteReady] at hoready
    | some s =>
      simp only [expiresCanonical] at hcanon
      have hsne : s ≠ "" := by
        by_contra h
        simp [h] at hcanon
      rw [if_neg hsne] at hcanon
      cases hiso : isoToMs s with
      | none => rw [hiso] at hcanon; simp at hcanon
      | some n =>
        rw [hiso] at hcanon
        have hn0 : n ≠ 0 := by
          by_contra h
          simp [h] at hcanon
        simp only [if_neg hn0, beq_iff_eq] at hcanon
        have hmatch : (match (some n : Option Int) with
            | some n => if n ≠ 0 then some (msToIso n) else none
            | none => none) = some s := by
          simp [hn0, hcanon]
        have hval := core (some n) hmatch
        have hexpval : (match (⟨a, rt, some s, none⟩ : OAuthCredentials).expiresAt with
            | some s' =>
              if s' ≠ "" then
                some (match isoToMs s' with | some n' => Json.num n' | none => Json.null)
              else none
            | none => none) = some (.num n) := by
          simp [hsne, hiso]
        cases hof : env.openCodeFile with
        | missing =>
          exact hval [] (by
            simp only [writeOpenCodeCredentials, hof]
            simp [hsne, hiso])
        | badJson m =>
          exact hval [] (by
            simp only [writeOpenCodeCredentials, hof]
            simp [hsne, hiso])
        | parsed doc0 =>
          cases doc0 with
          | obj fs =>
            exact hval fs (by
              simp only [writeOpenCodeCredentials, hof]
              simp [hsne, hiso])
          | null => rw [hof] at hoready; simp [openWriteReady] at hoready
          | bool b => rw [hof] at hoready; simp [openWriteReady] at hoready
          | num n' => rw [hof] at hoready; simp [openWriteReady] at hoready
          | str s' => rw [hof] at hoready; simp [openWriteReady] at hoready
          | arr xs => rw [hof] at hoready; simp [openWriteReady] at hoready

/-- Claim C1: when the first attempt of an authenticated GET comes back
401/403, the client drops its cached credential and re-reads the store;
if the re-read yields a different access token it retries exactly once
with the new token (succeeding when the retry response is a 2xx payload);
if the re-read yields the identical token, or fails, it returns the
original response's failure immediately with no second HTTP request and
an empty credential cache. -/
theorem request_retries_once_on_auth_rejection
    (env : ApiEnv) (st : ClientState) (c : OAuthCredentials)
    (status : Nat) (bodyText : String) (bodyJson : Except String Json)
    (hcred : st.credentials = some c)
    (hhttp : env.http 0 c.accessToken = .response status bodyText bodyJson)
    (hauth : status = 401 ∨ status = 403) :
    (∀ c' src, loadOAuthCredentials (env.store 0) = .success c' src →
      c'.accessToken ≠ c.accessToken →
      (request env st).2.2 = [c.accessToken, c'.accessToken] ∧
      ∀ (txt : String) (j : Json),
        env.http 1 c'.accessToken = .response 200 txt (.ok j) →
        (request env st).2.1 = .success j) ∧
    (∀ c' src, loadOAuthCredentials (env.store 0) = .success c' src →
      c'.accessToken = c.accessToken →
      (request env st).2.1 = .failure (createError status bodyText bodyJson) ∧
      (request env st).2.2 = [c.accessToken] ∧
      (request env st).1.credentials = none) ∧
    (∀ e, loadOAuthCredentials (env.store 0) = .failure e →
      (request env st).2.1 = .failure (createError status bodyText bodyJson) ∧
      (request env st).2.2 = [c.accessToken] ∧
      (request env st).1.credentials = none) := by
  have hens : ensureCredentials env st 0 = (st, 0, .success c) := by
    simp [ensureCredentials, hcred]
  refine ⟨?_, ?_, ?_⟩
  · intro c' src hload hne
    have hreq : request env st =
        ((requestRetry env ⟨some c', st.credentialSource⟩ 1 1).1,
          (requestRetry env ⟨some c', st.credentialSource⟩ 1 1).2.1,
          c.accessToken ::
            (requestRetry env ⟨some c', st.credentialSource⟩ 1 1).2.2) := by
      rcases hauth with rfl | rfl <;>
      · unfold request
        rw [hens]
        simp [hhttp, hload, FetchOutcome.okStatus, if_pos hne]
    have hrr := requestRetry_cached env ⟨some c', st.credentialSource⟩ c' 1 1 rfl
    refine ⟨?_, ?_⟩
    · rw [hreq]
      simp [hrr.1]
    · intro txt j hh2
      rw [hreq]
      simpa using hrr.2 txt j hh2
  · intro c' src hload heq
    have hreq : request env st =
        ({ st with credentials := none },
          .failure (createError status bodyText bodyJson), [c.accessToken]) := by
      rcases hauth with rfl | rfl <;>
      · unfold request
        rw [hens]
        simp [hhttp, hload, FetchOutcome.okStatus, heq]
    rw [hreq]
    simp
  · intro e hload
    have hreq : request env st =
        ({ st with credentials := none },
          .failure (createError status bodyText bodyJson), [c.accessToken]) := by
      rcases hauth with rfl | rfl <;>
      · unfold request
        rw [hens]
        simp [hhttp, hload, FetchOutcome.okStatus]
    rw [hreq]
    simp

/-- Witness for C1: a concrete 401 with an externally refreshed token
leads to exactly one retry with the new token and a successful result;
the same concrete 401 with an unchanged store fails at once with a single
HTTP request and a dropped cache. -/
theorem request_retries_once_on_auth_rejection_witness :
    ((request apiEnvNewToken clientStateOld).2.2 =
        ["sk-ant-oat01-old", "sk-ant-oat01-new"] ∧
      (request apiEnvNewToken clientStateOld).2.1 = .success (.str "payload")) ∧
    ((request apiEnvSameToken clientStateOld).2.1 =
        .failure (createError 401 "denied" (.error "SyntaxError")) ∧
      (request apiEnvSameToken clientStateOld).2.2 = ["sk-ant-oat01-old"] ∧
      (request apiEnvSameToken clientStateOld).1.credentials = none) := by
  have h1 := request_retries_once_on_auth_rejection apiEnvNewToken clientStateOld
    oldCred 401 "denied" (.error "SyntaxError") rfl rfl (Or.inl rfl)
  have h2 := request_retries_once_on_auth_rejection apiEnvSameToken clientStateOld
    oldCred 401 "denied" (.error "SyntaxError") rfl rfl (Or.inl rfl)
  have ha := h1.1 ⟨"sk-ant-oat01-new", none, none, none⟩ .claudeCode
    (by decide) (by decide)
  have hb := h2.2.1 ⟨"sk-ant-oat01-old", none, none, none⟩ .claudeCode
    (by decide) rfl
  exact ⟨⟨ha.1, ha.2 "ok" (.str "payload") rfl⟩, hb⟩

/-- Claim C3: in every Monitor Engine fetch cycle, a failure sets
`lastError` while leaving `usage`, `profile` and `lastFetch` at their
pre-fetch values; a success clears `lastError` and replaces `usage`,
`profile` and `lastFetch` with the new response; a cycle that leaves
`lastError` non-null never updated `usage`/`profile`. -/
theorem fetchCycle_error_and_update_exclusive {α β : Type}
    (st : MonitorState α β) (r : OAuthApiResult (α × β)) (nowMs : Int) :
    (∀ e, r = .failure e →
      (fetchCycle st r nowMs).lastError = some e.message ∧
      (fetchCycle st r nowMs).usage = st.usage ∧
      (fetchCycle st r nowMs).profile = st.profile ∧
      (fetchCycle st r nowMs).lastFetch = st.lastFetch) ∧
    (∀ u p, r = .success (u, p) →
      (fetchCycle st r nowMs).lastError = none ∧
      (fetchCycle st r nowMs).usage = some u ∧
      (fetchCycle st r nowMs).profile = some p ∧
      (fetchCycle st r nowMs).lastFetch = some nowMs) ∧
    ((fetchCycle st r nowMs).lastError ≠ none →
      (fetchCycle st r nowMs).usage = st.usage ∧
      (fetchCycle st r nowMs).profile = st.profile) := by
  refine ⟨?_, ?_, ?_⟩
  · rintro e rfl
    simp [fetchCycle]
  · rintro u p rfl
    simp [fetchCycle]
  · intro h
    cases r with
    | success d => simp [fetchCycle] at h
    | failure e => simp [fetchCycle]

/-- Witness for C3: a failed cycle at a concrete state and a successful
cycle at a concrete state. -/
theorem fetchCycle_error_and_update_exclusive_witness :
    ((fetchCycle (α := Nat) (β := Nat)
        ⟨some 1, some 2, some 3, none, true⟩
        (.failure ⟨.api_error, "boom", 500⟩) 9).lastError = some "boom" ∧
      (fetchCycle (α := Nat) (β := Nat)
        ⟨some 1, some 2, some 3, none, true⟩
        (.failure ⟨.api_error, "boom", 500⟩) 9).usage = some 1 ∧
      (fetchCycle (α := Nat) (β := Nat)
        ⟨some 1, some 2, some 3, none, true⟩
        (.failure ⟨.api_error, "boom", 500⟩) 9).profile = some 2 ∧
      (fetchCycle (α := Nat) (β := Nat)
        ⟨some 1, some 2, some 3, none, true⟩
        (.failure ⟨.api_error, "boom", 500⟩) 9).lastFetch = some 3) ∧
    ((fetchCycle (α := Nat) (β := Nat)
        ⟨some 1, some 2, some 3, some "boom", true⟩
        (.success (7, 8)) 9).lastError = none ∧
      (fetchCycle (α := Nat) (β := Nat)
        ⟨some 1, some 2, some 3, some "boom", true⟩
        (.success (7, 8)) 9).usage = some 7 ∧
      (fetchCycle (α := Nat) (β := Nat)
        ⟨some 1, some 2, some 3, some "boom", true⟩
        (.success (7, 8)) 9).profile = some 8 ∧
      (fetchCycle (α := Nat) (β := Nat)
        ⟨some 1, some 2, some 3, some "boom", true⟩
        (.success (7, 8)) 9).lastFetch = some 9) :=
  ⟨(fetchCycle_error_and_update_exclusive
      ⟨some 1, some 2, some 3, none, true⟩
      (.failure ⟨.api_error, "boom", 500⟩) 9).1 ⟨.api_error, "boom", 500⟩ rfl,
    (fetchCycle_error_and_update_exclusive
      ⟨some 1, some 2, some 3, some "boom", true⟩
      (.success (7, 8)) 9).2.1 7 8 rfl⟩

/-- Claim C8: `getRateLimitSummary` joins the two parallel fetches so that
the usage failure wins, then the profile failure; the discarded branch's
result is irrelevant to a failed summary; on double success it returns
the pair; the join is a total function (the client never throws). -/
theorem getRateLimitSummary_first_failure_wins {α β : Type}
    (u : OAuthApiResult α) (p p' : OAuthApiResult β) :
    (∀ e, u = .failure e →
      getRateLimitSummary u p = .failure e ∧
      getRateLimitSummary u p = getRateLimitSummary u p') ∧
    (∀ a e, u = .success a → p = .failure e →
      getRateLimitSummary u p = .failure e) ∧
    (∀ a b, u = .success a → p = .success b →
      getRateLimitSummary u p = .success (a, b)) := by
  refine ⟨?_, ?_, ?_⟩
  · rintro e rfl
    simp [getRateLimitSummary]
  · rintro a e rfl rfl
    simp [getRateLimitSummary]
  · rintro a b rfl rfl
    simp [getRateLimitSummary]

/-- Witness for C8: concrete failed-usage, failed-profile and
double-success joins. -/
theorem getRateLimitSummary_first_failure_wins_witness :
    (getRateLimitSummary (α := Nat) (β := Nat)
        (.failure ⟨.api_error, "u", 500⟩) (.success 2) =
      .failure ⟨.api_error, "u", 500⟩ ∧
      getRateLimitSummary (α := Nat) (β := Nat)
        (.failure ⟨.api_error, "u", 500⟩) (.success 2) =
      getRateLimitSummary (α := Nat) (β := Nat)
        (.failure ⟨.api_error, "u", 500⟩) (.failure ⟨.api_error, "p", 429⟩)) ∧
    getRateLimitSummary (α := Nat) (β := Nat)
      (.success 1) (.failure ⟨.api_error, "p", 429⟩) =
      .failure ⟨.api_error, "p", 429⟩ ∧
    getRateLimitSummary (α := Nat) (β := Nat)
      (.success 1) (.success 2) = .success (1, 2) :=
  ⟨(getRateLimitSummary_first_failure_wins
      (.failure ⟨.api_error, "u", 500⟩) (.success 2)
      (.failure ⟨.api_error, "p", 429⟩)).1 ⟨.api_error, "u", 500⟩ rfl,
    (getRateLimitSummary_first_failure_wins
      (.success 1) (.failure ⟨.api_error, "p", 429⟩)
      (.failure ⟨.api_error, "p", 429⟩)).2.1 1 ⟨.api_error, "p", 429⟩ rfl rfl,
    (getRateLimitSummary_first_failure_wins
      (.success 1) (.success 2) (.success 2)).2.2 1 2 rfl rfl⟩

/-- Claim C2 (failing evaluation): a Claude Code credentials file that
exists but holds invalid JSON is collapsed by `loadFromClaudeCode` into
the plain not-found error, so resolution continues to the next source and,
when no later source succeeds, the generic no-credentials message — not
the malformed-source error — is returned; the file loader itself does
produce the hard parse error that the collapse then discards. -/
theorem loadOAuthCredentials_collapses_malformed_claude_code :
    loadOAuthCredentials envMalformedClaude =
      .failure "No credentials found. Please authenticate via Claude Code or OpenCode." ∧
    loadOAuthCredentials envMalformedClaudeWithOpenCode = .success ocCred .opencode ∧
    loadFromClaudeCodeFile envMalformedClaude =
      .failure "Failed to parse Claude Code credentials: Unexpected token x in JSON at position 0" ∧
    loadFromClaudeCode envMalformedClaude = .failure "claude-code-not-found" := by
  refine ⟨by decide, by decide, by decide, by decide⟩

/-- Claim C5 (failing evaluation): when the destination join of a pane
move fails, the recovery handler re-attaches the monitor pane with the
fixed command `join-pane -v -t <session>:0.0`, i.e. at the bottom —
not at the pane's original pre-move position (here: right).  Exactly one
monitor pane remains and the reported compact mode is the unchanged
pre-move value, but the position is lost. -/
theorem moveMonitorPane_failed_join_reattaches_at_bottom :
    moveMonitorPane
      { unhookFails := false, breakFails := false, joinFails := true,
        selectFails := false, hookSetFails := false, recoverJoinFails := false }
      { monitorAt := some .right, monitorInTmpWindow := false, layoutHook := none }
      .up false =
    ({ monitorAt := some .bottom, monitorInTmpWindow := false, layoutHook := none },
      { success := false, newCompactMode := false }) ∧
    some PanePosition.bottom ≠ some PanePosition.right := by
  refine ⟨by decide, by decide⟩

/-- Claim C6: with the test override unset, when the Claude Code source is
not found (non-macOS, no credentials file), any successful OpenCode load
becomes the overall result with OpenCode named as the source used; and
when OpenCode is not found either, the single aggregated re-authenticate
error is returned. -/
theorem loadOAuthCredentials_priority_fallthrough
    (env : CredStoreEnv)
    (htest : env.testCredentials = none)
    (hdarwin : env.platformDarwin = false)
    (hclaude : env.claudeCodeFile = .missing) :
    (∀ c s, loadFromOpenCode env = .success c s →
      loadOAuthCredentials env = .success c s ∧ s = .opencode) ∧
    (env.openCodeFile = .missing →
      loadOAuthCredentials env =
        .failure "No credentials found. Please authenticate via Claude Code or OpenCode.") := by
  have hcc : loadFromClaudeCode env = .failure "claude-code-not-found" := by
    simp [loadFromClaudeCode, loadFromClaudeCodeKeychain,
      loadFromClaudeCodeFile, hdarwin, hclaude]
  constructor
  · intro c s hoc
    refine ⟨?_, loadFromOpenCode_source env c s hoc⟩
    simp [loadOAuthCredentials, htest, hcc, hoc]
  · intro hopen
    have hoc : loadFromOpenCode env = .failure "opencode-not-found" := by
      simp [loadFromOpenCode, hopen]
    simp [loadOAuthCredentials, htest, hcc, hoc]

/-- Witness for C6: the concrete fall-through (Claude Code absent,
OpenCode valid) and the concrete aggregated error. -/
theorem loadOAuthCredentials_priority_fallthrough_witness :
    (loadOAuthCredentials envPriorityA = .success ocCred .opencode ∧
      CredentialSource.opencode = .opencode) ∧
    loadOAuthCredentials envNoStores =
      .failure "No credentials found. Please authenticate via Claude Code or OpenCode." :=
  ⟨(loadOAuthCredentials_priority_fallthrough envPriorityA rfl rfl rfl).1
      ocCred .opencode (by decide),
    (loadOAuthCredentials_priority_fallthrough envNoStores rfl rfl rfl).2 rfl⟩

/-- Claim C7 (counterexample): the Token Refresh Client's transport
failure and server rejection yield the same result constructor carrying
only a message string; a server-controlled `error_description` can even
forge a result literally equal to a network failure's, so the two kinds
are not distinguishable by the caller other than through the message
text. -/
theorem refreshOAuthToken_error_kinds_coincide :
    refreshOAuthToken (.netError "connection reset") 0 =
      refreshOAuthToken (.response 400 "body"
        (.ok (.obj [("error_description",
          .str "Token refresh network error: connection reset")]))) 0 ∧
    refreshOAuthToken (.netError "connection reset") 0 =
      .failure "Token refresh network error: connection reset" := by
  refine ⟨by decide, by decide⟩

/-- Claim C7 (amended): the two failure modes are told apart only by
message conventions — a transport failure's message always starts with
the fixed `Token refresh network error: ` marker, while a non-2xx server
rejection's message is the parsed `error_description` (falling back to
`error`, then to `Token refresh failed: <status>`); both are the same
`failure` shape with no kind tag. -/
theorem refreshOAuthToken_failure_messages
    (msg : String) (nowMs : Int) (status : Nat) (bodyText : String)
    (j : Json) (d : String)
    (hnok : FetchOutcome.okStatus status = false) :
    refreshOAuthToken (.netError msg) nowMs =
      .failure ("Token refresh network error: " ++ msg) ∧
    (asNullishStr (jsGet j "error_description") = some d →
      refreshOAuthToken (.response status bodyText (.ok j)) nowMs = .failure d) ∧
    refreshOAuthToken (.response status bodyText (.error msg)) nowMs =
      .failure ("Token refresh failed: " ++ toString status) := by
  refine ⟨by simp [refreshOAuthToken], ?_, by simp [refreshOAuthToken, hnok]⟩
  intro hd
  simp [refreshOAuthToken, hnok, hd]

/-- Witness for C7's amended theorem at a concrete 400 rejection. -/
theorem refreshOAuthToken_failure_messages_witness :
    FetchOutcome.okStatus 400 = false ∧
    refreshOAuthToken (.netError "timeout") 0 =
      .failure "Token refresh network error: timeout" ∧
    (asNullishStr (jsGet (.obj [("error_description", .str "bad token")])
        "error_description") = some "bad token" →
      refreshOAuthToken (.response 400 "b"
        (.ok (.obj [("error_description", .str "bad token")]))) 0 =
        .failure "bad token") ∧
    refreshOAuthToken (.response 400 "b" (.error "oops")) 0 =
      .failure "Token refresh failed: 400" :=
  ⟨by decide,
    (refreshOAuthToken_failure_messages "timeout" 0 400 "b"
      (.obj [("error_description", .str "bad token")]) "bad token" (by decide)).1,
    (refreshOAuthToken_failure_messages "timeout" 0 400 "b"
      (.obj [("error_description", .str "bad token")]) "bad token" (by decide)).2.1,
    (refreshOAuthToken_failure_messages "oops" 0 400 "b"
      (.obj [("error_description", .str "bad token")]) "bad token" (by decide)).2.2⟩

/-- Witness for C4's amended theorem: the concrete scope-free record
round-trips through the claude-code schema, and the record with a
canonical expiry round-trips through the opencode schema. -/
theorem writeBack_load_roundtrip_on_written_fields_witness :
    (∃ doc,
      (writeBackCredentials envNoStores .claudeCode
        { recWithScopes with scopes := none }).returned = true ∧
      (writeBackCredentials envNoStores .claudeCode
        { recWithScopes with scopes := none }).claudeCodeFile = some doc ∧
      loadOAuthCredentials { envNoStores with claudeCodeFile := .parsed doc } =
        .success { recWithScopes with scopes := none } .claudeCode) ∧
    (∃ doc,
      (writeBackCredentials envNoStores .opencode ocCred).returned = true ∧
      (writeBackCredentials envNoStores .opencode ocCred).openCodeFile = some doc ∧
      loadOAuthCredentials { envNoStores with openCodeFile := .parsed doc } =
        .success ocCred .opencode) := by
  have h1 := writeBack_load_roundtrip_on_written_fields envNoStores
    { recWithScopes with scopes := none } rfl rfl (by decide) rfl
  have h2 := writeBack_load_roundtrip_on_written_fields envNoStores
    ocCred rfl rfl (by decide) rfl
  exact ⟨h1.1 (by decide), h2.2 rfl (by decide) (by decide)⟩

/-- Claim C9: rewriting an existing, parsing credential file preserves
every top-level field other than the rewritten credential entry
(`claudeAiOauth` for claude-code, `anthropic` for opencode), and for the
claude-code source every sibling field inside the existing `claudeAiOauth`
entry other than the three overwritten ones. -/
theorem writeBack_preserves_sibling_fields
    (fs : List (String × Json)) (rec : OAuthCredentials) (k : String) :
    (k ≠ "claudeAiOauth" →
      ∀ doc, writeClaudeCodeCredentials (.parsed (.obj fs)) rec = some doc →
        jsGet doc k = jLookup k fs) ∧
    (∀ inner, jLookup "claudeAiOauth" fs = some (.obj inner) →
      k ≠ "accessToken" → k ≠ "refreshToken" → k ≠ "expiresAt" →
      ∀ doc, writeClaudeCodeCredentials (.parsed (.obj fs)) rec = some doc →
        ∃ newInner, jsGet doc "claudeAiOauth" = some (.obj newInner) ∧
          jLookup k newInner = jLookup k inner) ∧
    (k ≠ "anthropic" →
      ∀ doc, writeOpenCodeCredentials (.parsed (.obj fs)) rec = some doc →
        jsGet doc k = jLookup k fs) := by
  refine ⟨?_, ?_, ?_⟩
  · intro hk doc hw
    simp only [writeClaudeCodeCredentials, Option.some.injEq] at hw
    subst hw
    simp [jsGet, jLookup_setKey_ne fs k _ _ hk]
  · intro inner hli hk1 hk2 hk3 doc hw
    simp only [writeClaudeCodeCredentials, hli, Option.some.injEq] at hw
    subst hw
    refine ⟨setKey (setKey (setKey inner
        "accessToken" (some (.str rec.accessToken)))
        "refreshToken" (rec.refreshToken.map .str))
        "expiresAt" (rec.expiresAt.map .str),
      by simp [jsGet, jLookup_setKey_self_some], ?_⟩
    rw [jLookup_setKey_ne _ _ _ _ hk3, jLookup_setKey_ne _ _ _ _ hk2,
      jLookup_setKey_ne _ _ _ _ hk1]
  · intro hk doc hw
    simp only [writeOpenCodeCredentials, Option.some.injEq] at hw
    subst hw
    simp [jsGet, jLookup_setKey_ne fs k _ _ hk]

/-- Witness for C9: the unrelated top-level fields and the unrelated
`claudeAiOauth` sibling of a concrete file survive both rewrites. -/
theorem writeBack_preserves_sibling_fields_witness :
    (jsGet docWrittenClaude "other" = jLookup "other" fsWithSiblings ∧
      jsGet docWrittenOpenCode "other" = jLookup "other" fsWithSiblings) ∧
    ∃ newInner, jsGet docWrittenClaude "claudeAiOauth" = some (.obj newInner) ∧
      jLookup "subscriptionType" newInner =
        jLookup "subscriptionType"
          [("accessToken", .str "sk-ant-oat01-prev"),
           ("subscriptionType", .str "max")] := by
  have h1 := writeBack_preserves_sibling_fields fsWithSiblings recWithScopes "other"
  have h2 := writeBack_preserves_sibling_fields fsWithSiblings recWithScopes
    "subscriptionType"
  exact ⟨⟨h1.1 (by decide) docWrittenClaude rfl,
      h1.2.2 (by decide) docWrittenOpenCode rfl⟩,
    h2.2.1 [("accessToken", .str "sk-ant-oat01-prev"),
      ("subscriptionType", .str "max")] rfl
      (by decide) (by decide) (by decide) docWrittenClaude rfl⟩

/-- Claim C10: credential loading never rejects a record for a past
`expiresAt` — the claude-code parser and the opencode loader succeed for
any expiry value, already-passed ones included (neither consults a
clock); `getTokenExpiryInfo` on a record whose expiry is not in the
future reports `isExpired` true with `expiresIn` null, and `expiresIn`
is never non-positive. -/
theorem load_accepts_expired_token_expiry_info
    (env : CredStoreEnv) (inner aFields : List (String × Json))
    (tok s : String) (expMs nowMs t : Int) (cred : OAuthCredentials) :
    (jLookup "accessToken" inner = some (.str tok) →
      strStartsWith tok "sk-ant-oat" = true →
      jLookup "expiresAt" inner = some (.num expMs) →
      expMs < nowMs →
      parseClaudeCodeCredentials (.obj [("claudeAiOauth", .obj inner)]) =
        .ret (.success
          { accessToken := tok,
            refreshToken := (jLookup "refreshToken" inner).bind asStr,
            expiresAt := some (msToIso expMs),
            scopes := (jLookup "scopes" inner).bind asStrList }
          .claudeCode)) ∧
    (env.openCodeFile = .parsed (.obj [("anthropic", .obj aFields)]) →
      jLookup "access" aFields = some (.str tok) →
      strStartsWith tok "sk-ant-oat" = true →
      jLookup "expires" aFields = some (.num expMs) →
      expMs ≠ 0 →
      expMs < nowMs →
      loadFromOpenCode env =
        .success
          { accessToken := tok,
            refreshToken := (jLookup "refresh" aFields).bind asStr,
            expiresAt := some (msToIso expMs),
            scopes := none }
          .opencode) ∧
    (cred.expiresAt = some s → isoToMs s = some t → t ≤ nowMs →
      getTokenExpiryInfo cred nowMs =
        { expiresAt := some t, isExpired := true, expiresIn := none }) ∧
    (∀ v, (getTokenExpiryInfo cred nowMs).expiresIn = some v → 0 < v) := by
  refine ⟨?_, ?_, ?_, ?_⟩
  · intro hat htok hexp _hpast
    have hne : tok ≠ "" := strStartsWith_ne_empty _ _ (by decide) htok
    unfold parseClaudeCodeCredentials
    simp [jsGet, jLookup, hat, hexp, jsTruthy, hne, htok]
  · intro hfile hacc htok hexp hn0 _hpast
    have hne : tok ≠ "" := strStartsWith_ne_empty _ _ (by decide) htok
    unfold loadFromOpenCode
    simp [hfile, jsGet, jLookup, hacc, hexp, jsTruthy, hne, htok, asInt, hn0]
  · intro hs ht hle
    have h1 : t - nowMs ≤ 0 := by omega
    have h2 : ¬ t - nowMs > 0 := by omega
    simp only [getTokenExpiryInfo, hs, ht]
    simp [h1, h2]
  · intro v hv
    cases hce : cred.expiresAt with
    | none => simp only [getTokenExpiryInfo, hce] at hv; simp at hv
    | some s' =>
      cases hi : isoToMs s' with
      | none =>
        simp only [getTokenExpiryInfo, hce, hi] at hv
        simp at hv
      | some t' =>
        simp only [getTokenExpiryInfo, hce, hi] at hv
        by_cases hpos : t' - nowMs > 0
        · simp [hpos] at hv
          omega
        · simp [hpos] at hv

/-- Witness for C10: a concrete credential whose expiry passed in 1970
still parses from both sources, its expiry info reports expired with a
null `expiresIn`, and a concrete future expiry yields a positive
`expiresIn`. -/
theorem load_accepts_expired_token_expiry_info_witness :
    (parseClaudeCodeCredentials (.obj [("claudeAiOauth", .obj
        [("accessToken", .str "sk-ant-oat01-e"), ("expiresAt", .num 1000)])]) =
      .ret (.success
        { accessToken := "sk-ant-oat01-e", refreshToken := none,
          expiresAt := some (msToIso 1000), scopes := none } .claudeCode)) ∧
    (loadFromOpenCode
        { envNoStores with openCodeFile := FileState.parsed (.obj
          [("anthropic", .obj [("access", .str "sk-ant-oat01-e"),
            ("expires", .num 1000)])]) } =
      .success
        { accessToken := "sk-ant-oat01-e", refreshToken := none,
          expiresAt := some (msToIso 1000), scopes := none } .opencode) ∧
    (getTokenExpiryInfo
        ⟨"sk-ant-oat01-e", none, some "1970-01-01T00:00:01.000Z", none⟩ 5000 =
      { expiresAt := some 1000, isExpired := true, expiresIn := none }) ∧
    0 < (5000 : Int) := by
  have h := load_accepts_expired_token_expiry_info
    { envNoStores with openCodeFile := FileState.parsed (.obj
      [("anthropic", .obj [("access", .str "sk-ant-oat01-e"),
        ("expires", .num 1000)])]) }
    [("accessToken", .str "sk-ant-oat01-e"), ("expiresAt", .num 1000)]
    [("access", .str "sk-ant-oat01-e"), ("expires", .num 1000)]
    "sk-ant-oat01-e" "1970-01-01T00:00:01.000Z" 1000 5000 1000
    ⟨"sk-ant-oat01-e", none, some "1970-01-01T00:00:01.000Z", none⟩
  have hfut := load_accepts_expired_token_expiry_info
    envNoStores [] [] "sk-ant-oat01-e" "1970-01-01T00:00:01.000Z" 1000 (-4000) 1000
    ⟨"sk-ant-oat01-e", none, some "1970-01-01T00:00:01.000Z", none⟩
  refine ⟨?_, ?_, ?_, ?_⟩
  · simpa using h.1 rfl (by decide) rfl (by decide)
  · simpa using h.2.1 rfl rfl (by decide) rfl (by decide) (by decide)
  · simpa using h.2.2.1 rfl (by decide) (by decide)
  · exact hfut.2.2.2 5000 (by decide)

end UsageMonitor
